import Mathlib

/-!
Shallow embedding of `wgengine/router_linux.go`: the Linux router of the
tailscale VPN client.  The router keeps the last-applied local address and
route set for one tunnel interface and reconciles them with a desired
`RouteSettings` value by issuing `ip` / `iptables` commands.

Machine integers: IPv4 addresses are modelled as `Nat` (the 32-bit value),
prefix lengths as `Nat`.  The external command runner is modelled as an
oracle `Cmd → Option String` returning `none` on success and `some err`
on failure; the embedded operations return the new router state, the list
of issued commands in issue order, and the error value the Go function
returns.
-/

namespace Wgengine

/-- Embeds `wgcfg.CIDR`: an IP address plus a prefix length.  Go compares these
by value equality. -/
structure CIDR where
  ip : Nat
  mask : Nat
deriving DecidableEq

/-- The Go zero value `wgcfg.CIDR{}`. -/
def CIDR.zero : CIDR := ⟨0, 0⟩

/-- Computes `route.IPNet(); net.IP.Mask(net.Mask)`: the network address of the
CIDR, i.e. the IP with the host bits below the prefix cleared (32-bit). -/
def CIDR.network (c : CIDR) : Nat :=
  c.ip / 2 ^ (32 - c.mask) * 2 ^ (32 - c.mask)

/-- One OS-level command issued by the router, mirroring the argv lists
built in the source. -/
inductive Cmd where
  /-- Command `ip link set <dev> up`. -/
  | linkUp (dev : String)
  /-- Command `iptables -A FORWARD -i <dev> -j ACCEPT`. -/
  | iptablesForward (dev : String)
  /-- Command `iptables -t nat -A POSTROUTING -o <out> -j MASQUERADE`. -/
  | iptablesNat (outDev : String)
  /-- Command `ip addr del <addr> dev <dev>`. -/
  | addrDel (addr : CIDR) (dev : String)
  /-- Command `ip addr add <addr> dev <dev>`. -/
  | addrAdd (addr : CIDR) (dev : String)
  /-- Command `ip route del <net>/<mask> via <gw> dev <dev>`. -/
  | routeDel (net : Nat) (mask : Nat) (gw : Nat) (dev : String)
  /-- Command `ip route add <net>/<mask> via <gw> dev <dev>`. -/
  | routeAdd (net : Nat) (mask : Nat) (gw : Nat) (dev : String)
  /-- Call `replaceResolvConf(...)`: replace the system resolver configuration. -/
  | resolvReplace
  /-- Call `restoreResolvConf(...)`: restore the system resolver configuration. -/
  | resolvRestore
  /-- Command `service systemd-resolved restart`. -/
  | serviceRestart
deriving DecidableEq

/-- Is the command an `ip addr` add/del? -/
def Cmd.isAddr : Cmd → Bool
  | .addrDel .. => true
  | .addrAdd .. => true
  | _ => false

/-- Is the command an `ip route del`? -/
def Cmd.isRouteDel : Cmd → Bool
  | .routeDel .. => true
  | _ => false

/-- Is the command an `ip route add`? -/
def Cmd.isRouteAdd : Cmd → Bool
  | .routeAdd .. => true
  | _ => false

/-- Is the command an iptables rule installation? -/
def Cmd.isIptables : Cmd → Bool
  | .iptablesForward .. => true
  | .iptablesNat .. => true
  | _ => false

/-- Does the command touch the DNS resolver configuration or service? -/
def Cmd.isResolv : Cmd → Bool
  | .resolvReplace => true
  | .resolvRestore => true
  | .serviceRestart => true
  | _ => false

/-- A peer of the wireguard configuration: only its `AllowedIPs` matter
to the router. -/
structure Peer where
  allowedIPs : List CIDR
deriving DecidableEq

/-- Embeds `RouteSettings`: the desired state handed to `SetRoutes`.  The DNS
fields are carried but only used by the dead `if false` branch. -/
structure RouteSettings where
  localAddr : CIDR
  peers : List Peer
  dns : List Nat
  dnsDomains : List String
deriving DecidableEq

/-- Embeds `linuxRouter`: the tunnel interface name plus the Applied State
(`local` address and `routes` set).  The Go `routes` map is modelled as a
duplicate-free list of its keys. -/
structure LinuxRouter where
  tunname : String
  local' : CIDR
  routes : List CIDR
deriving DecidableEq

/-- Embeds `newUserspaceRouter`: a fresh router has the zero-value address and an
empty route set. -/
def newUserspaceRouter (tunname : String) : LinuxRouter :=
  ⟨tunname, CIDR.zero, []⟩

/-- The running record of one call: commands issued so far and the
deferred first error `errq` (Go: `if errq == nil { errq = err }`). -/
structure ExecState where
  cmds : List Cmd
  errq : Option String
deriving DecidableEq

/-- Issue one command through the runner: append it to the issue list and
record its error only if no earlier error was recorded. -/
def run1 (runner : Cmd → Option String) (s : ExecState) (c : Cmd) : ExecState :=
  { cmds := s.cmds ++ [c],
    errq :=
      match s.errq with
      | some e => some e
      | none => runner c }

/-- Insert a route into the accumulating route set; the Go map collapses
duplicate keys. -/
def insertRoute (m : List CIDR) (c : CIDR) : List CIDR :=
  if c ∈ m then m else m ++ [c]

/-- Computes `newRoutes`: the union over all peers of their allowed-IP CIDRs. -/
def newRoutes (rs : RouteSettings) : List CIDR :=
  rs.peers.foldl (fun m p => p.allowedIPs.foldl insertRoute m) []

/-- The `ip route del` command built for one stale route: destination
normalized to its network address, gateway the old local address. -/
def routeDelCmd (r : LinuxRouter) (route : CIDR) : Cmd :=
  Cmd.routeDel route.network route.mask r.local'.ip r.tunname

/-- The `ip route add` command built for one new route: destination
normalized to its network address, gateway the new local address. -/
def routeAddCmd (rs : RouteSettings) (tunname : String) (route : CIDR) : Cmd :=
  Cmd.routeAdd route.network route.mask rs.localAddr.ip tunname

/-- Embeds `linuxRouter.SetRoutes`: reconcile the applied state with `rs`.
Returns the updated router, the issued commands in order, and the error
value returned to the caller (the first command failure, if any).  The
final `if false` block of the source (DNS takeover) is mirrored
verbatim. -/
def setRoutes (runner : Cmd → Option String) (r : LinuxRouter)
    (rs : RouteSettings) : LinuxRouter × List Cmd × Option String :=
  let s0 : ExecState := ⟨[], none⟩
  let s1 : ExecState :=
    if rs.localAddr ≠ r.local' then
      let sa : ExecState :=
        if r.local' ≠ CIDR.zero then
          run1 runner s0 (Cmd.addrDel r.local' r.tunname)
        else s0
      run1 runner sa (Cmd.addrAdd rs.localAddr r.tunname)
    else s0
  let nr : List CIDR := newRoutes rs
  let s2 : ExecState :=
    (r.routes.filter (fun route => decide (route ∉ nr))).foldl
      (fun t route => run1 runner t (routeDelCmd r route)) s1
  let s3 : ExecState :=
    ((nr.filter (fun route => decide (route ∉ r.routes)))).foldl
      (fun t route => run1 runner t (routeAddCmd rs r.tunname route)) s2
  let s4 : ExecState :=
    if (false : Bool) then
      let sb : ExecState :=
        ⟨s3.cmds ++ [Cmd.resolvReplace],
          match runner Cmd.resolvReplace with
          | some e => some ("replacing resolv.conf failed: " ++ e)
          | none => s3.errq⟩
      ⟨sb.cmds ++ [Cmd.serviceRestart], sb.errq⟩
    else s3
  ({ r with local' := rs.localAddr, routes := nr }, s4.cmds, s4.errq)

/-- Embeds `linuxRouter.Up`: bring the interface up, then best-effort install the
forwarding and NAT iptables rules.  A failure of the `ip link` command
calls `log.Fatalf`, which aborts the process: modelled as `none` (no
return value).  iptables failures are only logged. -/
def up (runner : Cmd → Option String) (r : LinuxRouter) :
    Option (List Cmd × Option String) :=
  match runner (Cmd.linkUp r.tunname) with
  | some _ => none
  | none =>
      some ([Cmd.linkUp r.tunname, Cmd.iptablesForward r.tunname,
             Cmd.iptablesNat "eth0"], none)

/-- Embeds `linuxRouter.Close`.  Modelled from the spec: `restoreResolvConf`
(whose body is not part of this file's package slice) reverts the system
resolver configuration and reports an error; its outcome is taken as the
abstract parameter `restoreErr`.  `Close` then restarts the resolver
service (`restartSystemd`, whose failure is only logged) and returns the
restoration error.  It issues no route, address or iptables command and
leaves the router state untouched. -/
def close' (r : LinuxRouter) (restoreErr : Option String) :
    LinuxRouter × List Cmd × Option String :=
  (r, [Cmd.resolvRestore, Cmd.serviceRestart], restoreErr)

/-- The first failure among a list of commands, in issue order. -/
def firstErr (runner : Cmd → Option String) : List Cmd → Option String
  | [] => none
  | c :: cs =>
      match runner c with
      | some e => some e
      | none => firstErr runner cs

/-- The address commands of one `SetRoutes` call. -/
def addrCmds (r : LinuxRouter) (rs : RouteSettings) : List Cmd :=
  if rs.localAddr ≠ r.local' then
    (if r.local' ≠ CIDR.zero then [Cmd.addrDel r.local' r.tunname] else [])
      ++ [Cmd.addrAdd rs.localAddr r.tunname]
  else []

/-- The route deletion commands of one `SetRoutes` call: one per applied
route absent from the desired set. -/
def delCmds (r : LinuxRouter) (rs : RouteSettings) : List Cmd :=
  (r.routes.filter (fun route => decide (route ∉ newRoutes rs))).map
    (routeDelCmd r)

/-- The route addition commands of one `SetRoutes` call: one per desired
route absent from the applied set. -/
def addCmds (r : LinuxRouter) (rs : RouteSettings) : List Cmd :=
  ((newRoutes rs).filter (fun route => decide (route ∉ r.routes))).map
    (routeAddCmd rs r.tunname)

/-! ### Helper lemmas -/

theorem firstErr_append (runner : Cmd → Option String) (l₁ l₂ : List Cmd) :
    firstErr runner (l₁ ++ l₂) =
      match firstErr runner l₁ with
      | some e => some e
      | none => firstErr runner l₂ := by
  induction l₁ with
  | nil => simp [firstErr]
  | cons c cs ih =>
      simp only [List.cons_append, firstErr]
      cases runner c with
      | some e => rfl
      | none => exact ih

theorem run1_cmds (runner : Cmd → Option String) (s : ExecState) (c : Cmd) :
    (run1 runner s c).cmds = s.cmds ++ [c] := rfl

theorem run1_errq_inv (runner : Cmd → Option String) (s : ExecState) (c : Cmd)
    (h : s.errq = firstErr runner s.cmds) :
    (run1 runner s c).errq = firstErr runner (run1 runner s c).cmds := by
  simp only [run1, firstErr_append, ← h]
  cases s.errq with
  | some e => rfl
  | none => simp [firstErr]; cases runner c <;> rfl

theorem foldl_run1_cmds (runner : Cmd → Option String) (f : CIDR → Cmd)
    (l : List CIDR) (s : ExecState) :
    (l.foldl (fun t route => run1 runner t (f route)) s).cmds
      = s.cmds ++ l.map f := by
  induction l generalizing s with
  | nil => simp
  | cons x xs ih =>
      simp only [List.foldl_cons, List.map_cons, ih, run1_cmds,
        List.append_assoc, List.singleton_append]

theorem foldl_run1_errq (runner : Cmd → Option String) (f : CIDR → Cmd)
    (l : List CIDR) (s : ExecState) (h : s.errq = firstErr runner s.cmds) :
    (l.foldl (fun t route => run1 runner t (f route)) s).errq
      = firstErr runner
          (l.foldl (fun t route => run1 runner t (f route)) s).cmds := by
  induction l generalizing s with
  | nil => exact h
  | cons x xs ih =>
      exact ih (run1 runner s (f x)) (run1_errq_inv runner s (f x) h)

theorem mem_insertRoute (m : List CIDR) (c x : CIDR) :
    x ∈ insertRoute m c ↔ x ∈ m ∨ x = c := by
  by_cases h : c ∈ m
  · simp only [insertRoute, if_pos h]
    constructor
    · exact Or.inl
    · rintro (hx | rfl)
      · exact hx
      · exact h
  · simp [insertRoute, if_neg h]

theorem mem_foldl_insertRoute (l m : List CIDR) (x : CIDR) :
    x ∈ l.foldl insertRoute m ↔ x ∈ m ∨ x ∈ l := by
  induction l generalizing m with
  | nil => simp
  | cons c cs ih =>
      simp only [List.foldl_cons, ih, mem_insertRoute, List.mem_cons]
      tauto

theorem mem_newRoutes (rs : RouteSettings) (x : CIDR) :
    x ∈ newRoutes rs ↔ ∃ p, p ∈ rs.peers ∧ x ∈ p.allowedIPs := by
  show x ∈ rs.peers.foldl (fun m p => p.allowedIPs.foldl insertRoute m) [] ↔ _
  have key : ∀ (ps : List Peer) (m : List CIDR),
      x ∈ ps.foldl (fun m p => p.allowedIPs.foldl insertRoute m) m ↔
        x ∈ m ∨ ∃ p, p ∈ ps ∧ x ∈ p.allowedIPs := by
    intro ps
    induction ps with
    | nil => simp
    | cons q qs ih =>
        intro m
        simp only [List.foldl_cons, ih, mem_foldl_insertRoute, List.mem_cons]
        constructor
        · rintro ((hm | hq) | ⟨p, hp, hx⟩)
          · exact Or.inl hm
          · exact Or.inr ⟨q, Or.inl rfl, hq⟩
          · exact Or.inr ⟨p, Or.inr hp, hx⟩
        · rintro (hm | ⟨p, (rfl | hp), hx⟩)
          · exact Or.inl (Or.inl hm)
          · exact Or.inl (Or.inr hx)
          · exact Or.inr ⟨p, hp, hx⟩
  simp [key rs.peers []]

theorem nodup_insertRoute (m : List CIDR) (c : CIDR) (h : m.Nodup) :
    (insertRoute m c).Nodup := by
  by_cases hc : c ∈ m
  · simpa [insertRoute, if_pos hc]
  · simp only [insertRoute, if_neg hc]
    simpa [List.nodup_append] using ⟨h, hc⟩

theorem nodup_foldl_insertRoute (l m : List CIDR) (h : m.Nodup) :
    (l.foldl insertRoute m).Nodup := by
  induction l generalizing m with
  | nil => exact h
  | cons c cs ih => exact ih (insertRoute m c) (nodup_insertRoute m c h)

theorem nodup_newRoutes (rs : RouteSettings) : (newRoutes rs).Nodup := by
  show (rs.peers.foldl (fun m p => p.allowedIPs.foldl insertRoute m) []).Nodup
  have key : ∀ (ps : List Peer) (m : List CIDR), m.Nodup →
      (ps.foldl (fun m p => p.allowedIPs.foldl insertRoute m) m).Nodup := by
    intro ps
    induction ps with
    | nil => exact fun m h => h
    | cons q qs ih =>
        exact fun m h => ih _ (nodup_foldl_insertRoute q.allowedIPs m h)
  exact key rs.peers [] List.nodup_nil

theorem addr_step_eq (runner : Cmd → Option String) (r : LinuxRouter)
    (rs : RouteSettings) :
    (if rs.localAddr ≠ r.local' then
       run1 runner
         (if r.local' ≠ CIDR.zero then
            run1 runner ⟨[], none⟩ (Cmd.addrDel r.local' r.tunname)
          else ⟨[], none⟩)
         (Cmd.addrAdd rs.localAddr r.tunname)
     else (⟨[], none⟩ : ExecState))
    = ⟨addrCmds r rs, firstErr runner (addrCmds r rs)⟩ := by
  by_cases h1 : rs.localAddr = r.local'
  · simp [addrCmds, h1, firstErr]
  · by_cases h2 : r.local' = CIDR.zero
    · have h1' : ¬(rs.localAddr = CIDR.zero) := by
        rw [h2] at h1; exact h1
      cases hr : runner (Cmd.addrAdd rs.localAddr r.tunname) <;>
        simp [addrCmds, h1, h2, h1', run1, firstErr, hr]
    · cases hd : runner (Cmd.addrDel r.local' r.tunname) <;>
        cases ha : runner (Cmd.addrAdd rs.localAddr r.tunname) <;>
          simp [addrCmds, h1, h2, run1, firstErr, hd, ha]

theorem folds_eq (runner : Cmd → Option String) (r : LinuxRouter)
    (rs : RouteSettings) (s1 : ExecState)
    (h : s1.errq = firstErr runner s1.cmds) :
    ((newRoutes rs).filter (fun route => decide (route ∉ r.routes))).foldl
        (fun t route => run1 runner t (routeAddCmd rs r.tunname route))
        ((r.routes.filter (fun route => decide (route ∉ newRoutes rs))).foldl
          (fun t route => run1 runner t (routeDelCmd r route)) s1)
      = ⟨s1.cmds ++ (delCmds r rs ++ addCmds r rs),
         firstErr runner (s1.cmds ++ (delCmds r rs ++ addCmds r rs))⟩ := by
  set s2 := (r.routes.filter (fun route => decide (route ∉ newRoutes rs))).foldl
      (fun t route => run1 runner t (routeDelCmd r route)) s1 with hs2
  set s3 := ((newRoutes rs).filter (fun route => decide (route ∉ r.routes))).foldl
      (fun t route => run1 runner t (routeAddCmd rs r.tunname route)) s2 with hs3
  have h2c : s2.cmds = s1.cmds ++ delCmds r rs := by
    rw [hs2, foldl_run1_cmds]
    rfl
  have h2e : s2.errq = firstErr runner s2.cmds := by
    rw [hs2]
    exact foldl_run1_errq runner (routeDelCmd r) _ s1 h
  have h3c : s3.cmds = s1.cmds ++ (delCmds r rs ++ addCmds r rs) := by
    rw [hs3, foldl_run1_cmds, h2c, List.append_assoc]
    rfl
  have h3e : s3.errq = firstErr runner s3.cmds := by
    rw [hs3]
    exact foldl_run1_errq runner (routeAddCmd rs r.tunname) _ s2 h2e
  have heta : s3 = ExecState.mk s3.cmds s3.errq := rfl
  rw [heta, h3e, h3c]

/-- Master characterization of `setRoutes`: the new state swaps in the
desired address and route set unconditionally; the issued commands are the
address block, then the deletions, then the additions; the returned error
is the first failure among the issued commands. -/
theorem setRoutes_eq (runner : Cmd → Option String) (r : LinuxRouter)
    (rs : RouteSettings) :
    setRoutes runner r rs =
      (⟨r.tunname, rs.localAddr, newRoutes rs⟩,
       addrCmds r rs ++ (delCmds r rs ++ addCmds r rs),
       firstErr runner (addrCmds r rs ++ (delCmds r rs ++ addCmds r rs))) := by
  simp only [setRoutes]
  rw [addr_step_eq runner r rs]
  rw [folds_eq runner r rs ⟨addrCmds r rs, firstErr runner (addrCmds r rs)⟩ rfl]
  simp

theorem filter_map_of_false {f : CIDR → Cmd} {p : Cmd → Bool}
    (hp : ∀ x, p (f x) = false) (l : List CIDR) :
    (l.map f).filter p = [] := by
  induction l with
  | nil => rfl
  | cons x xs ih => simp [List.filter_cons, hp, ih]

theorem filter_map_of_true {f : CIDR → Cmd} {p : Cmd → Bool}
    (hp : ∀ x, p (f x) = true) (l : List CIDR) :
    (l.map f).filter p = l.map f := by
  induction l with
  | nil => rfl
  | cons x xs ih => simp [List.filter_cons, hp, ih]

theorem filter_addrCmds_of_false (r : LinuxRouter) (rs : RouteSettings)
    {p : Cmd → Bool} (hd : p (Cmd.addrDel r.local' r.tunname) = false)
    (ha : p (Cmd.addrAdd rs.localAddr r.tunname) = false) :
    (addrCmds r rs).filter p = [] := by
  by_cases h1 : rs.localAddr = r.local' <;> by_cases h2 : r.local' = CIDR.zero <;>
    simp [addrCmds, h1, h2, List.filter_cons, hd, ha]

theorem mem_addrCmds (r : LinuxRouter) (rs : RouteSettings) (c : Cmd)
    (h : c ∈ addrCmds r rs) :
    c = Cmd.addrDel r.local' r.tunname ∨ c = Cmd.addrAdd rs.localAddr r.tunname := by
  by_cases h1 : rs.localAddr = r.local' <;> by_cases h2 : r.local' = CIDR.zero <;>
    simp [addrCmds, h1, h2] at h <;> tauto

theorem self_diff_filter (l : List CIDR) :
    l.filter (fun route => decide (route ∉ l)) = [] := by
  rw [List.filter_eq_nil_iff]
  intro a ha
  simp [ha]

/-! ### Claim theorems -/

/-- C2: calling `SetRoutes` twice in succession with the same desired
state issues zero commands on the second call: the applied address then
equals the target address and the route-set diff is empty, so neither
address nor route delete/add commands are issued. -/
theorem setRoutes_idempotent (runner₁ runner₂ : Cmd → Option String)
    (r : LinuxRouter) (rs : RouteSettings) :
    (setRoutes runner₂ (setRoutes runner₁ r rs).1 rs).2.1 = [] := by
  rw [setRoutes_eq runner₁ r rs, setRoutes_eq runner₂]
  simp [addrCmds, delCmds, addCmds, self_diff_filter]

/-- C3: `SetRoutes` unconditionally updates the Applied State to the
target address and the union of the peers' allowed-IP CIDRs, for every
command runner — hence also when commands fail and the call returns an
error. -/
theorem setRoutes_updates_applied_state (runner : Cmd → Option String)
    (r : LinuxRouter) (rs : RouteSettings) :
    (setRoutes runner r rs).1 = ⟨r.tunname, rs.localAddr, newRoutes rs⟩
    ∧ ∀ rt : CIDR, rt ∈ (setRoutes runner r rs).1.routes ↔
        ∃ p, p ∈ rs.peers ∧ rt ∈ p.allowedIPs := by
  rw [setRoutes_eq]
  exact ⟨rfl, fun rt => mem_newRoutes rs rt⟩

/-- C4: the list of issued commands does not depend on which commands the
runner fails (no failure short-circuits later commands), and the value
returned by `SetRoutes` is exactly the first error in issue order (later
failures are suppressed from the return value). -/
theorem setRoutes_first_error_best_effort (runner runner' : Cmd → Option String)
    (r : LinuxRouter) (rs : RouteSettings) :
    (setRoutes runner r rs).2.1 = (setRoutes runner' r rs).2.1
    ∧ (setRoutes runner r rs).2.2 = firstErr runner (setRoutes runner r rs).2.1 := by
  rw [setRoutes_eq runner r rs, setRoutes_eq runner' r rs]
  exact ⟨rfl, rfl⟩

/-- C1: the route commands issued by one `SetRoutes` call are exactly one
route-delete per element of the applied route set absent from the desired
route set, and one route-add per desired route absent from the applied
set; a route in both sets produces no command.  The desired route set is
the union of the peers' allowed-IP CIDRs. -/
theorem setRoutes_diff_exact (runner : Cmd → Option String) (r : LinuxRouter)
    (rs : RouteSettings) (hA : r.routes.Nodup) :
    (setRoutes runner r rs).2.1.filter Cmd.isRouteDel
      = (r.routes.filter (fun route => decide (route ∉ newRoutes rs))).map
          (routeDelCmd r)
    ∧ (setRoutes runner r rs).2.1.filter Cmd.isRouteAdd
      = ((newRoutes rs).filter (fun route => decide (route ∉ r.routes))).map
          (routeAddCmd rs r.tunname)
    ∧ (r.routes.filter (fun route => decide (route ∉ newRoutes rs))).Nodup
    ∧ ((newRoutes rs).filter (fun route => decide (route ∉ r.routes))).Nodup
    ∧ (∀ rt : CIDR, rt ∈ newRoutes rs ↔ ∃ p, p ∈ rs.peers ∧ rt ∈ p.allowedIPs) := by
  rw [setRoutes_eq]
  refine ⟨?_, ?_, List.Nodup.filter _ hA,
    List.Nodup.filter _ (nodup_newRoutes rs), fun rt => mem_newRoutes rs rt⟩
  · rw [List.filter_append, List.filter_append,
      filter_addrCmds_of_false r rs rfl rfl, delCmds, addCmds,
      filter_map_of_true (f := routeDelCmd r) (p := Cmd.isRouteDel)
        (fun x => rfl),
      filter_map_of_false (f := routeAddCmd rs r.tunname) (p := Cmd.isRouteDel)
        (fun x => rfl)]
    simp
  · rw [List.filter_append, List.filter_append,
      filter_addrCmds_of_false r rs rfl rfl, delCmds, addCmds,
      filter_map_of_false (f := routeDelCmd r) (p := Cmd.isRouteAdd)
        (fun x => rfl),
      filter_map_of_true (f := routeAddCmd rs r.tunname) (p := Cmd.isRouteAdd)
        (fun x => rfl)]
    simp

/-- C5: when the local address changes (and the route set changes too),
every address command of the call precedes every route command: the
command list splits into an address-only block followed by a block with
no address command, and every route-add in the second block uses the new
local address as gateway. -/
theorem setRoutes_addr_before_route_adds (runner : Cmd → Option String)
    (r : LinuxRouter) (rs : RouteSettings)
    (h1 : rs.localAddr ≠ r.local') (h2 : newRoutes rs ≠ r.routes) :
    ∃ l₁ l₂ : List Cmd,
      (setRoutes runner r rs).2.1 = l₁ ++ l₂
      ∧ (∀ c ∈ l₁, c.isAddr = true)
      ∧ (∀ c ∈ l₂, c.isAddr = false)
      ∧ (∀ c ∈ l₁, c.isRouteAdd = false)
      ∧ (∀ net m gw dev, Cmd.routeAdd net m gw dev ∈ l₂ →
          gw = rs.localAddr.ip) := by
  refine ⟨addrCmds r rs, delCmds r rs ++ addCmds r rs,
    by rw [setRoutes_eq], ?_, ?_, ?_, ?_⟩
  · intro c hc
    rcases mem_addrCmds r rs c hc with rfl | rfl <;> rfl
  · intro c hc
    rcases List.mem_append.mp hc with hm | hm <;>
      · rcases List.mem_map.mp hm with ⟨x, _, rfl⟩
        rfl
  · intro c hc
    rcases mem_addrCmds r rs c hc with rfl | rfl <;> rfl
  · intro net m gw dev hmem
    rcases List.mem_append.mp hmem with hm | hm
    · rcases List.mem_map.mp hm with ⟨x, _, hx⟩
      exact absurd hx (by simp [routeDelCmd])
    · rcases List.mem_map.mp hm with ⟨x, _, hx⟩
      rw [routeAddCmd] at hx
      injection hx with _ _ h3 _
      exact h3.symm

/-- C6: every `ip route del` issued by `SetRoutes` carries the network
address of a stale applied route (host bits cleared under its mask) and
the old local address as gateway; every `ip route add` carries the
network address of a new desired route and the new local address as
gateway, both on the tunnel device. -/
theorem setRoutes_route_cmd_shape (runner : Cmd → Option String)
    (r : LinuxRouter) (rs : RouteSettings) (net m gw : Nat) (dev : String) :
    (Cmd.routeDel net m gw dev ∈ (setRoutes runner r rs).2.1 →
      gw = r.local'.ip ∧ dev = r.tunname
      ∧ ∃ rt, rt ∈ r.routes ∧ rt ∉ newRoutes rs
          ∧ net = rt.network ∧ m = rt.mask)
    ∧ (Cmd.routeAdd net m gw dev ∈ (setRoutes runner r rs).2.1 →
      gw = rs.localAddr.ip ∧ dev = r.tunname
      ∧ ∃ rt, rt ∈ newRoutes rs ∧ rt ∉ r.routes
          ∧ net = rt.network ∧ m = rt.mask) := by
  rw [setRoutes_eq]
  constructor
  · intro hmem
    rcases List.mem_append.mp hmem with hm | hm
    · rcases mem_addrCmds r rs _ hm with h | h <;> exact absurd h (by simp)
    rcases List.mem_append.mp hm with hm' | hm'
    · rcases List.mem_map.mp hm' with ⟨x, hx, hfx⟩
      rw [routeDelCmd] at hfx
      injection hfx with e1 e2 e3 e4
      rcases List.mem_filter.mp hx with ⟨hxr, hxd⟩
      exact ⟨e3.symm, e4.symm, x, hxr, by simpa using hxd, e1.symm, e2.symm⟩
    · rcases List.mem_map.mp hm' with ⟨x, _, hfx⟩
      exact absurd hfx (by simp [routeAddCmd])
  · intro hmem
    rcases List.mem_append.mp hmem with hm | hm
    · rcases mem_addrCmds r rs _ hm with h | h <;> exact absurd h (by simp)
    rcases List.mem_append.mp hm with hm' | hm'
    · rcases List.mem_map.mp hm' with ⟨x, _, hfx⟩
      exact absurd hfx (by simp [routeDelCmd])
    · rcases List.mem_map.mp hm' with ⟨x, hx, hfx⟩
      rw [routeAddCmd] at hfx
      injection hfx with e1 e2 e3 e4
      rcases List.mem_filter.mp hx with ⟨hxr, hxd⟩
      exact ⟨e3.symm, e4.symm, x, hxr, by simpa using hxd, e1.symm, e2.symm⟩

/-- C7: the address commands of a `SetRoutes` call: none when the target
address equals the applied address; only an address-add when the applied
address is the zero value (as after construction, where
`newUserspaceRouter` leaves the zero address); an address-delete of the
old address followed by an address-add of the target otherwise. -/
theorem setRoutes_addr_cmd_cases (runner : Cmd → Option String)
    (r : LinuxRouter) (rs : RouteSettings) :
    (setRoutes runner r rs).2.1.filter Cmd.isAddr =
      (if rs.localAddr = r.local' then []
       else (if r.local' = CIDR.zero then []
             else [Cmd.addrDel r.local' r.tunname])
          ++ [Cmd.addrAdd rs.localAddr r.tunname])
    ∧ ∀ tn : String, (newUserspaceRouter tn).local' = CIDR.zero := by
  refine ⟨?_, fun tn => rfl⟩
  rw [setRoutes_eq, List.filter_append, List.filter_append, delCmds, addCmds,
    filter_map_of_false (f := routeDelCmd r) (p := Cmd.isAddr) (fun x => rfl),
    filter_map_of_false (f := routeAddCmd rs r.tunname) (p := Cmd.isAddr)
      (fun x => rfl), List.append_nil, List.append_nil]
  by_cases h1 : rs.localAddr = r.local' <;> by_cases h2 : r.local' = CIDR.zero <;>
    simp [addrCmds, h1, h2, List.filter_cons, Cmd.isAddr]

/-- C8: whenever the `ip link set up` command succeeds, `Up` returns
successfully with a nil error, whatever the runner does on the iptables
forwarding and NAT commands: their failures are only logged. -/
theorem up_ok (runner : Cmd → Option String) (r : LinuxRouter)
    (h : runner (Cmd.linkUp r.tunname) = none) :
    up runner r = some ([Cmd.linkUp r.tunname, Cmd.iptablesForward r.tunname,
                         Cmd.iptablesNat "eth0"], none) := by
  simp [up, h]

/-- C9: `Close` leaves the router's applied state (address and route set)
untouched, issues only the resolver restoration and the resolver-service
restart — no route, address or iptables command — and returns exactly the
restoration error. -/
theorem close_frame (r : LinuxRouter) (restoreErr : Option String) :
    (close' r restoreErr).1 = r
    ∧ (close' r restoreErr).2.1 = [Cmd.resolvRestore, Cmd.serviceRestart]
    ∧ (close' r restoreErr).2.1.filter Cmd.isAddr = []
    ∧ (close' r restoreErr).2.1.filter Cmd.isRouteDel = []
    ∧ (close' r restoreErr).2.1.filter Cmd.isRouteAdd = []
    ∧ (close' r restoreErr).2.1.filter Cmd.isIptables = []
    ∧ (close' r restoreErr).2.2 = restoreErr :=
  ⟨rfl, rfl, rfl, rfl, rfl, rfl, rfl⟩

/-- C10: the DNS-takeover branch of `SetRoutes` is dead: no call ever
issues a resolver-configuration replacement or a resolver-service
restart, and the returned error is always the first failure among the
issued address/route commands — never a resolver-replacement error. -/
theorem setRoutes_dns_branch_dead (runner : Cmd → Option String)
    (r : LinuxRouter) (rs : RouteSettings) :
    (setRoutes runner r rs).2.1.filter Cmd.isResolv = []
    ∧ (setRoutes runner r rs).2.2
        = firstErr runner (setRoutes runner r rs).2.1 := by
  rw [setRoutes_eq]
  refine ⟨?_, rfl⟩
  rw [List.filter_append, List.filter_append, delCmds, addCmds,
    filter_addrCmds_of_false r rs rfl rfl,
    filter_map_of_false (f := routeDelCmd r) (p := Cmd.isResolv) (fun x => rfl),
    filter_map_of_false (f := routeAddCmd rs r.tunname) (p := Cmd.isResolv)
      (fun x => rfl), List.append_nil, List.append_nil]

/-! ### Concrete instances used by witnesses -/

/-- A runner on which every command succeeds. -/
def okRunner : Cmd → Option String := fun _ => none

/-- A runner on which only `ip link set up` succeeds. -/
def wUpRunner : Cmd → Option String := fun c =>
  match c with
  | Cmd.linkUp _ => none
  | _ => some "iptables failed"

/-- Applied state of the spec scenario: local address 100.64.0.1/32,
routes 10.0.0.0/24 and 10.0.1.0/24. -/
def scenarioRouter : LinuxRouter :=
  ⟨"tailscale0", ⟨1681915905, 32⟩, [⟨167772160, 24⟩, ⟨167772416, 24⟩]⟩

/-- Desired state of the spec scenario: same local address, two peers
whose allowed IPs are 10.0.1.0/24 and 10.0.2.0/24. -/
def scenarioSettings : RouteSettings :=
  ⟨⟨1681915905, 32⟩, [⟨[⟨167772416, 24⟩]⟩, ⟨[⟨167772672, 24⟩]⟩], [], []⟩

/-- A router whose local address 100.64.0.1/32 and route set
{10.0.0.0/24} are both about to change. -/
def wRouter5 : LinuxRouter :=
  ⟨"tailscale0", ⟨1681915905, 32⟩, [⟨167772160, 24⟩]⟩

/-- Desired state changing both the address (to 100.64.0.2/32) and the
route set (to {10.0.2.0/24}). -/
def wSettings5 : RouteSettings :=
  ⟨⟨1681915906, 32⟩, [⟨[⟨167772672, 24⟩]⟩], [], []⟩

/-- Witness for C1 at the spec scenario, together with the scenario's
expected concrete output: one delete for 10.0.0.0/24, one add for
10.0.2.0/24, nothing for 10.0.1.0/24, and the post-call route set. -/
theorem setRoutes_diff_exact_witness :
    scenarioRouter.routes.Nodup
    ∧ ((setRoutes okRunner scenarioRouter scenarioSettings).2.1.filter Cmd.isRouteDel
        = (scenarioRouter.routes.filter
            (fun route => decide (route ∉ newRoutes scenarioSettings))).map
            (routeDelCmd scenarioRouter)
      ∧ (setRoutes okRunner scenarioRouter scenarioSettings).2.1.filter Cmd.isRouteAdd
        = ((newRoutes scenarioSettings).filter
            (fun route => decide (route ∉ scenarioRouter.routes))).map
            (routeAddCmd scenarioSettings scenarioRouter.tunname)
      ∧ (scenarioRouter.routes.filter
          (fun route => decide (route ∉ newRoutes scenarioSettings))).Nodup
      ∧ ((newRoutes scenarioSettings).filter
          (fun route => decide (route ∉ scenarioRouter.routes))).Nodup
      ∧ (∀ rt : CIDR, rt ∈ newRoutes scenarioSettings ↔
          ∃ p, p ∈ scenarioSettings.peers ∧ rt ∈ p.allowedIPs))
    ∧ (setRoutes okRunner scenarioRouter scenarioSettings).2.1
        = [Cmd.routeDel 167772160 24 1681915905 "tailscale0",
           Cmd.routeAdd 167772672 24 1681915905 "tailscale0"]
    ∧ (setRoutes okRunner scenarioRouter scenarioSettings).1.routes
        = [⟨167772416, 24⟩, ⟨167772672, 24⟩] :=
  ⟨by decide,
   setRoutes_diff_exact okRunner scenarioRouter scenarioSettings (by decide),
   by decide, by decide⟩

/-- Witness for C5: a call changing both the address and the route set,
with both hypotheses discharged concretely. -/
theorem setRoutes_addr_before_route_adds_witness :
    wSettings5.localAddr ≠ wRouter5.local'
    ∧ newRoutes wSettings5 ≠ wRouter5.routes
    ∧ ∃ l₁ l₂ : List Cmd,
        (setRoutes okRunner wRouter5 wSettings5).2.1 = l₁ ++ l₂
        ∧ (∀ c ∈ l₁, c.isAddr = true)
        ∧ (∀ c ∈ l₂, c.isAddr = false)
        ∧ (∀ c ∈ l₁, c.isRouteAdd = false)
        ∧ (∀ net m gw dev, Cmd.routeAdd net m gw dev ∈ l₂ →
            gw = wSettings5.localAddr.ip) :=
  ⟨by decide, by decide,
   setRoutes_addr_before_route_adds okRunner wRouter5 wSettings5
     (by decide) (by decide)⟩

/-- Witness for C6: the issued route-delete carries the old gateway and a
stale route's network/mask; the issued route-add carries the new gateway
and a fresh route's network/mask. -/
theorem setRoutes_route_cmd_shape_witness :
    (Cmd.routeDel 167772160 24 1681915905 "tailscale0"
        ∈ (setRoutes okRunner wRouter5 wSettings5).2.1)
    ∧ (Cmd.routeAdd 167772672 24 1681915906 "tailscale0"
        ∈ (setRoutes okRunner wRouter5 wSettings5).2.1)
    ∧ ((1681915905 : Nat) = wRouter5.local'.ip ∧ "tailscale0" = wRouter5.tunname
        ∧ ∃ rt, rt ∈ wRouter5.routes ∧ rt ∉ newRoutes wSettings5
            ∧ (167772160 : Nat) = rt.network ∧ (24 : Nat) = rt.mask)
    ∧ ((1681915906 : Nat) = wSettings5.localAddr.ip
        ∧ "tailscale0" = wRouter5.tunname
        ∧ ∃ rt, rt ∈ newRoutes wSettings5 ∧ rt ∉ wRouter5.routes
            ∧ (167772672 : Nat) = rt.network ∧ (24 : Nat) = rt.mask) :=
  ⟨by decide, by decide,
   (setRoutes_route_cmd_shape okRunner wRouter5 wSettings5
      167772160 24 1681915905 "tailscale0").1 (by decide),
   (setRoutes_route_cmd_shape okRunner wRouter5 wSettings5
      167772672 24 1681915906 "tailscale0").2 (by decide)⟩

/-- Witness for C8: a runner failing every iptables command but not the
link-up command still makes `Up` return a nil error. -/
theorem up_ok_witness :
    wUpRunner (Cmd.linkUp "tailscale0") = none
    ∧ wUpRunner (Cmd.iptablesForward "tailscale0") = some "iptables failed"
    ∧ wUpRunner (Cmd.iptablesNat "eth0") = some "iptables failed"
    ∧ up wUpRunner (newUserspaceRouter "tailscale0")
        = some ([Cmd.linkUp "tailscale0", Cmd.iptablesForward "tailscale0",
                 Cmd.iptablesNat "eth0"], none) :=
  ⟨rfl, rfl, rfl, up_ok wUpRunner (newUserspaceRouter "tailscale0") rfl⟩

end Wgengine
